import Mathlib

/-!
Shallow embedding of `src/CMG2npy.py` (postCMGsim-light).

The repository has one module with three stage functions:
  * `generate_CMG_rwd`   — writes a report-request (`.rwd`) file;
  * `run_CMG_rwd_report` — invokes the external CMG `Report.exe`;
  * `CMG_rwo2npy`        — parses the raw `.rwo` report into a dense
    4-D array of shape `(n_i, n_j, n_k, n_time)`.

File-system state is modelled as sets of existing directory and file
paths; side effects (mkdir, file writes, process launches, printed
diagnostics) are collected in an ordered effect list.  Parsed report
lines are modelled by an alphabet `Line` that records, for each line of
the stripped input, which of the four classes of the Python scan it
falls into and whether the corresponding regex / float conversion
succeeded.  Numeric values are carried as integers: the code never
computes with the values, it only stores and moves them.
-/

namespace CMG2npy

/-- Carrier for the numeric values parsed out of data lines.  The code
only stores and relocates values, so an integer carrier is faithful. -/
abbrev Val := Int

/-- One stripped input line, classified the way the Python scan
classifies it (in branch order):
  * `timeLine p` — the line starts with `"**  TIME ="`; `p` is the
    result of matching `\*\*  TIME = (\d+(?:\.\d+)?)\s+(.+)`:
    `some (t, d)` on success, `none` when the regex fails;
  * `kjLine p` — the line starts with `"** K ="`; `p` is the result of
    matching `\*\* K = (\d+), J = (\d+)`;
  * `dataLine p` — the line is nonempty and starts with neither `"**"`,
    `"RESULTS"`, nor the property name; `p = some vs` when every
    whitespace token converts to a number, `none` when `float()` raises;
  * `other` — an empty line or a skipped header/banner line. -/
inductive Line where
  | timeLine (parsed : Option (Val × String))
  | kjLine (parsed : Option (Nat × Nat))
  | dataLine (parsed : Option (List Val))
  | other
deriving DecidableEq

/-- One cell block: the dict `{'k': k, 'j': j, 'values': [...]}`. -/
structure Cell where
  k : Nat
  j : Nat
  values : List Val
deriving DecidableEq

/-- One committed time step: the dict appended to `pressure_data`. -/
structure TimeData where
  time : Val
  date : String
  data : List Cell
deriving DecidableEq

/-- The parser's mutable locals at lines 129–136 of the source, plus
one piece of bookkeeping for Python's aliasing: a commit stores
`current_data.copy()`, a *shallow* copy, so the committed record keeps
referencing the same cell dicts as `current_data` until the next
successful time marker rebinds `current_data` to a fresh list.
`frozen` counts the committed records from before that last rebind:
records at index `≥ frozen` still share their cell dicts with
`current_data`, so a later `extend` on `current_data[-1]` is also
visible through them (see `step`). -/
structure ParseState where
  time_values : List Val
  time_dates : List String
  pressure_data : List TimeData
  current_time : Option Val
  current_k : Option Nat
  current_j : Option Nat
  current_data : List Cell
  frozen : Nat
deriving DecidableEq

def initState : ParseState :=
  { time_values := [], time_dates := [], pressure_data := []
    current_time := none, current_k := none, current_j := none
    current_data := [], frozen := 0 }

/-- Commit the open time step under the guard
`if current_time is not None and current_data:`, with
`date = time_dates[-1] if time_dates else ''` (source lines 145–150;
the same guard reappears at end of input, lines 187–192). -/
def commitCurrent (s : ParseState) : ParseState :=
  match s.current_time with
  | some t =>
    if s.current_data = [] then s
    else { s with pressure_data :=
            s.pressure_data ++
              [{ time := t, date := s.time_dates.getLastD "",
                 data := s.current_data }] }
  | none => s

/-- Append values to the last open block:
`current_data[-1]['values'].extend(values)` (source line 181). -/
def extendLast (cells : List Cell) (vs : List Val) : List Cell :=
  match cells.getLast? with
  | some c => cells.dropLast ++ [{ c with values := c.values ++ vs }]
  | none => cells

/-- One iteration of the line loop (source lines 139–184). -/
def step (s : ParseState) (l : Line) : ParseState :=
  match l with
  | .timeLine parsed =>
    -- the commit runs as soon as the `"**  TIME ="` prefix matches,
    -- before the full regex is tried
    let s := commitCurrent s
    match parsed with
    | some (t, d) =>
      -- `current_data = []` rebinds the name to a fresh list, so every
      -- committed record stops sharing cell dicts with it
      { s with current_time := some t
               time_values := s.time_values ++ [t]
               time_dates := s.time_dates ++ [d]
               current_data := []
               frozen := s.pressure_data.length }
    | none => s
  | .kjLine parsed =>
    match parsed with
    | some (k, j) =>
      { s with current_k := some k, current_j := some j
               current_data := s.current_data ++ [{ k := k, j := j, values := [] }] }
    | none => s
  | .dataLine parsed =>
    match parsed with
    | some vs =>
      -- `if current_data and 'values' in current_data[-1]`; the key
      -- `'values'` is present in every block the parser builds.
      -- `current_data[-1]['values'].extend(values)` mutates a dict that
      -- may still be referenced from shallow-copied committed records:
      -- exactly those committed since the last rebind (index ≥ frozen)
      -- whose data list has the same length as `current_data` end with
      -- that same dict, so the extend shows through them as well
      if s.current_data = [] then s
      else
        { s with
            current_data := extendLast s.current_data vs
            pressure_data := s.pressure_data.mapIdx (fun i td =>
              if s.frozen ≤ i ∧ td.data.length = s.current_data.length then
                { td with data := extendLast td.data vs }
              else td) }
    | none => s
  | .other => s

/-- The whole scan followed by the trailing commit (lines 138–192). -/
def parseLines (lines : List Line) : ParseState :=
  commitCurrent (lines.foldl step initState)

/-- Accumulator of the dimension scan (source lines 198–207).  The code
keeps `k_values` and `j_values` as sets but only takes their `max`, so
ordered lists of the inserted elements are a faithful carrier. -/
structure DimAcc where
  k_values : List Nat
  j_values : List Nat
  i_count : Nat
deriving DecidableEq

/-- Body of the dimension scan for one cell block (lines 204–207):
record k and j, and take the first nonzero value-sequence length as
`i_count` (`if i_count == 0: i_count = len(cell_data['values'])`). -/
def dimScanCell (acc : DimAcc) (c : Cell) : DimAcc :=
  { k_values := acc.k_values ++ [c.k]
    j_values := acc.j_values ++ [c.j]
    i_count := if acc.i_count = 0 then c.values.length else acc.i_count }

/-- The dimension scan over all committed time steps (lines 198–207). -/
def dimScan (pd : List TimeData) : DimAcc :=
  pd.foldl (fun acc td => td.data.foldl dimScanCell acc) ⟨[], [], 0⟩

/-- The dense array contents, as a total valuation of the four indices;
the shape is carried separately in `NpArray`. -/
def Arr := Nat → Nat → Nat → Nat → Val

/-- Zero-initialized contents, `np.zeros((n_i, n_j, n_k, n_time))`. -/
def zeroArr : Arr := fun _ _ _ _ => 0

/-- Scatter write `sim_results[:, j, k, time_idx] = values`: stores
`values[i]` at every `i < n_i` of the column `(j, k, t)`.  The loop only
performs this write under the guard `len(values) == n_i`. -/
def setSlice (a : Arr) (n_i j k t : Nat) (vs : List Val) : Arr :=
  fun i j' k' t' =>
    if i < n_i ∧ j' = j ∧ k' = k ∧ t' = t then vs.getD i 0
    else a i j' k' t'

/-- The data of the warning printed on a length mismatch (line 229):
expected `n_i`, got `len(values)`, for `K=k+1, J=j+1` where `k, j` are
the already-decremented indices — so the printed K and J are exactly the
block's original `k` and `j` — and the time value of the record. -/
structure Warning where
  expected : Nat
  got : Nat
  k : Nat
  j : Nat
  time : Val
deriving DecidableEq

def warnOf (n_i : Nat) (t : Val) (c : Cell) : Warning :=
  { expected := n_i, got := c.values.length, k := c.k, j := c.j, time := t }

/-- Resolution of one numpy integer index against an axis of size `n`:
a negative index wraps around from the end of the axis, and an index
out of range in either direction raises `IndexError`, reported here as
`none`. -/
def pyIdx (n : Nat) (x : Int) : Option Nat :=
  if 0 ≤ x then (if x < (n : Int) then some x.toNat else none)
  else (if 0 ≤ x + (n : Int) then some (x + (n : Int)).toNat else none)

/-- Fill-loop body for one cell block (lines 222–229).  The source
computes `k = cell_data['k'] - 1` and `j = cell_data['j'] - 1` as
Python ints (`-1` for a 0 index) and runs the guarded scatter write
`sim_results[:, j, k, time_idx] = values`; numpy resolves each of the
three indices against its axis size — negative wraps from the end, out
of range raises `IndexError` (`.error`, carrying the warnings printed
so far).  A mismatched block only prints a warning and performs no
indexing at all. -/
def fillCell (n_i n_j n_k n_time : Nat) (time : Val) (t_idx : Nat)
    (acc : Arr × List Warning) (c : Cell) :
    Except (List Warning) (Arr × List Warning) :=
  if c.values.length = n_i then
    match pyIdx n_j ((c.j : Int) - 1), pyIdx n_k ((c.k : Int) - 1),
          pyIdx n_time (t_idx : Int) with
    | some j, some k, some t => .ok (setSlice acc.1 n_i j k t c.values, acc.2)
    | _, _, _ => .error acc.2
  else
    .ok (acc.1, acc.2 ++ [warnOf n_i time c])

/-- Inner fill loop over the cell blocks of one committed time step;
an `IndexError` aborts the loop at the offending block. -/
def fillCells (n_i n_j n_k n_time : Nat) (time : Val) (t_idx : Nat) :
    List Cell → Arr × List Warning → Except (List Warning) (Arr × List Warning)
  | [], acc => .ok acc
  | c :: rest, acc =>
    match fillCell n_i n_j n_k n_time time t_idx acc c with
    | .ok acc' => fillCells n_i n_j n_k n_time time t_idx rest acc'
    | .error ws => .error ws

/-- Outer fill loop
`for time_idx, time_data in enumerate(pressure_data): ...` with the
running enumeration index made explicit (lines 221–229); an
`IndexError` propagates out. -/
def fillFrom (n_i n_j n_k n_time : Nat) (t_idx : Nat) (acc : Arr × List Warning) :
    List TimeData → Except (List Warning) (Arr × List Warning)
  | [] => .ok acc
  | td :: rest =>
    match fillCells n_i n_j n_k n_time td.time t_idx td.data acc with
    | .ok acc' => fillFrom n_i n_j n_k n_time (t_idx + 1) acc' rest
    | .error ws => .error ws

/-- The whole fill loop starting from the zero array. -/
def fillArray (n_i n_j n_k n_time : Nat) (pd : List TimeData) :
    Except (List Warning) (Arr × List Warning) :=
  fillFrom n_i n_j n_k n_time 0 (zeroArr, []) pd

/-- Proof-side unbounded fill body, with the indices already resolved
by Nat subtraction.  It coincides with `fillCell` whenever the block's
`k` and `j` are 1-based and within the axis sizes and `t_idx < n_time`
(see `fillCells_eq_pure`). -/
def pureFillCell (n_i : Nat) (time : Val) (t_idx : Nat)
    (acc : Arr × List Warning) (c : Cell) : Arr × List Warning :=
  if c.values.length = n_i then
    (setSlice acc.1 n_i (c.j - 1) (c.k - 1) t_idx c.values, acc.2)
  else
    (acc.1, acc.2 ++ [warnOf n_i time c])

/-- Proof-side unbounded outer fill loop (see `fillFrom_eq_pure`). -/
def pureFillFrom (n_i : Nat) (t_idx : Nat) (acc : Arr × List Warning) :
    List TimeData → Arr × List Warning
  | [] => acc
  | td :: rest =>
    pureFillFrom n_i (t_idx + 1) (td.data.foldl (pureFillCell n_i td.time t_idx) acc) rest

/-- File-system state: which directory paths and file paths exist. -/
structure FS where
  dirs : List String
  files : List String
deriving DecidableEq

def FS.isDir (fs : FS) (p : String) : Bool := fs.dirs.contains p

def FS.isFile (fs : FS) (p : String) : Bool := fs.files.contains p

/-- Existence check `os.path.exists`: true for a file or a directory. -/
def FS.pathExists (fs : FS) (p : String) : Bool := fs.isDir p || fs.isFile p

/-- Path concatenation (`Path.__truediv__` / `os.path.join`). -/
def pathJoin (a b : String) : String := a ++ "/" ++ b

/-- Observable side effects, in execution order. -/
inductive Effect where
  | mkdir (path : String)
  | writeTextFile (path : String) (content : String)
  | launch (cmd : String)
  | printMsg (msg : String)
  | printWarning (w : Warning)
  | saveArray (path : String)
deriving DecidableEq

/-- Exceptions the module can raise. -/
inductive Err where
  | fileNotFound (msg : String)
  | nameError (name : String)
  | valueError (msg : String)
  | indexError
deriving DecidableEq

/-- The four directive lines written to the `.rwd` file (lines 54–61). -/
def rwdContent (case_name property : String) (is_gmc_property : Bool)
    (precision : Nat) : String :=
  (if is_gmc_property then "*FILES \t '" ++ case_name ++ ".gmch.sr3' \n"
   else "*FILES \t '" ++ case_name ++ ".sr3' \n")
  ++ "*PRECISION \t " ++ toString precision ++ " \n"
  ++ "*OUTPUT \t 'rwo\\" ++ case_name ++ "_" ++ property ++ ".rwo' \n"
  ++ "*PROPERTY-FOR \t '" ++ property ++ "' \t *ALL-TIMES \n"

/-- Stage 1, `generate_CMG_rwd` (lines 14–61): validate the sr3 folder
and case file, then create the `rwo` subfolder and write the `.rwd`
request file.  Returns the effect trace and the raised error, if any. -/
def generate_CMG_rwd (fs : FS) (sr3_folder_path case_name property : String)
    (is_gmc_property : Bool) (precision : Nat) : List Effect × Option Err :=
  if !fs.isDir sr3_folder_path then
    ([], some (.fileNotFound ("Folder not found: " ++ sr3_folder_path)))
  else
    let case_file := pathJoin sr3_folder_path
      (if is_gmc_property then case_name ++ ".gmch.sr3" else case_name ++ ".sr3")
    if !fs.isFile case_file then
      ([], some (.fileNotFound ("Case not found: " ++ case_file)))
    else
      ([.mkdir (pathJoin sr3_folder_path "rwo"),
        .writeTextFile (pathJoin sr3_folder_path (case_name ++ ".rwd"))
          (rwdContent case_name property is_gmc_property precision)], none)

def reportExePath : String :=
  "\"C:\\Program Files\\CMG\\RESULTS\\2024.20\\Win_x64\\exe\\Report.exe\""

/-- Stage 2, `run_CMG_rwd_report` (lines 64–94): validate the rwd folder
and file; resolve the version string.  Only `'ese-ts2win-v2024.20'` is
implemented: any other version prints a message and leaves the locals
`exe_path` and `cd_path` unassigned, so building the command line at
line 90 raises an unbound-local error (it reads `cd_path` first); the
`os.system` call never runs in that case. -/
def run_CMG_rwd_report (fs : FS) (rwd_folder_path case_name cmg_version : String) :
    List Effect × Option Err :=
  if !fs.isDir rwd_folder_path then
    ([], some (.fileNotFound ("Folder not found: " ++ rwd_folder_path)))
  else if !fs.isFile (pathJoin rwd_folder_path (case_name ++ ".rwd")) then
    ([], some (.fileNotFound
        ("rwd file not found: " ++ pathJoin rwd_folder_path (case_name ++ ".rwd"))))
  else
    let branch : List Effect × Option String × Option String :=
      if cmg_version = "ese-ts2win-v2024.20" then
        ([], some reportExePath, some rwd_folder_path)
      else
        ([.printMsg ("The CMG version " ++ cmg_version ++
            " is not implemented yet .....")], none, none)
    match branch with
    | (effs, some exe_path, some cd_path) =>
      (effs ++ [.launch ("cd " ++ cd_path ++ "  & " ++ exe_path ++
        " -f " ++ case_name ++ ".rwd -o " ++ case_name)], none)
    | (effs, _, _) => (effs, some (.nameError "cd_path"))

/-- The returned numpy array: its shape `(n_i, n_j, n_k, n_time)` as
fixed by `np.zeros`, and its contents. -/
structure NpArray where
  shape : Nat × Nat × Nat × Nat
  get : Nat → Nat → Nat → Nat → Val

/-- Stage 3, `CMG_rwo2npy` (lines 98–236): check the `.rwo` file exists,
unconditionally create the save folder, parse the line stream, infer
the dimensions (`max` of an empty k/j set raises `ValueError`), fill
the array (an out-of-range numpy write raises `IndexError`), and save
only when `is_save` is set and the fill completed.  The `rwoLines`
argument is the classified content of the `.rwo` file at
`rwo_folder_path`. -/
def CMG_rwo2npy (fs : FS) (rwoLines : List Line)
    (rwo_folder_path case_name property : String)
    (is_save : Bool) (save_folder_path : String) :
    List Effect × Except Err NpArray :=
  let rwo_file_path := pathJoin rwo_folder_path (case_name ++ "_" ++ property ++ ".rwo")
  if !fs.pathExists rwo_file_path then
    ([], .error (.fileNotFound ("File not found: " ++ rwo_file_path)))
  else
    let st := parseLines rwoLines
    let dims := dimScan st.pressure_data
    match dims.k_values.max?, dims.j_values.max? with
    | some n_k, some n_j =>
      let n_i := dims.i_count
      let n_time := st.time_values.length
      match fillArray n_i n_j n_k n_time st.pressure_data with
      | .ok filled =>
        ([.mkdir save_folder_path] ++ filled.2.map Effect.printWarning ++
          (if is_save then
            [.saveArray (pathJoin save_folder_path (case_name ++ "_" ++ property ++ ".npy"))]
           else []),
         .ok { shape := (n_i, n_j, n_k, n_time), get := filled.1 })
      | .error ws =>
        -- an out-of-range write aborts the call: the warnings printed
        -- before the raise are the only further effects, and neither
        -- `np.save` nor the return happens
        ([.mkdir save_folder_path] ++ ws.map Effect.printWarning, .error .indexError)
    | _, _ =>
      ([.mkdir save_folder_path], .error (.valueError "max() arg is an empty sequence"))

/-- Shape of a successful result. -/
def resShape (r : Except Err NpArray) : Option (Nat × Nat × Nat × Nat) :=
  match r with
  | .ok a => some a.shape
  | .error _ => none

/-- Entry of a successful result. -/
def resGet (r : Except Err NpArray) (i j k t : Nat) : Option Val :=
  match r with
  | .ok a => some (a.get i j k t)
  | .error _ => none

/-- Did the call return normally? -/
def resOk (r : Except Err NpArray) : Bool :=
  match r with
  | .ok _ => true
  | .error _ => false

/-- The parse error of a failed result. -/
def resErr (r : Except Err NpArray) : Option Err :=
  match r with
  | .ok _ => none
  | .error e => some e

def Line.isTime : Line → Bool
  | .timeLine _ => true
  | _ => false

def Line.isParsedTime : Line → Bool
  | .timeLine (some _) => true
  | _ => false

def Line.isParsedKJ : Line → Bool
  | .kjLine (some _) => true
  | _ => false

/-- A well-formed raw report: every line carrying the time-marker prefix
also matches the full time regex. -/
def wellFormedTimes (lines : List Line) : Prop :=
  ∀ l ∈ lines, Line.isTime l = true → Line.isParsedTime l = true

/-! ### Parse-phase lemmas -/

theorem commitCurrent_time_values (s : ParseState) :
    (commitCurrent s).time_values = s.time_values := by
  unfold commitCurrent
  cases s.current_time with
  | none => rfl
  | some t =>
    by_cases h : s.current_data = [] <;> simp [h]

theorem commitCurrent_of_empty (s : ParseState) (h : s.current_data = []) :
    commitCurrent s = s := by
  unfold commitCurrent
  cases s.current_time with
  | none => rfl
  | some t => simp [h]

theorem step_time_values_length (s : ParseState) (l : Line) :
    (step s l).time_values.length =
      s.time_values.length + (if Line.isParsedTime l then 1 else 0) := by
  cases l with
  | timeLine p =>
    cases p with
    | some td =>
      obtain ⟨t, d⟩ := td
      simp [step, Line.isParsedTime, commitCurrent_time_values]
    | none => simp [step, Line.isParsedTime, commitCurrent_time_values]
  | kjLine p => cases p <;> simp [step, Line.isParsedTime]
  | dataLine p =>
    cases p with
    | some vs =>
      by_cases h : s.current_data = [] <;> simp [step, Line.isParsedTime, h]
    | none => simp [step, Line.isParsedTime]
  | other => simp [step, Line.isParsedTime]

theorem foldl_step_time_values_length (lines : List Line) : ∀ s : ParseState,
    (lines.foldl step s).time_values.length =
      s.time_values.length + lines.countP Line.isParsedTime := by
  induction lines with
  | nil => intro s; simp
  | cons l rest ih =>
    intro s
    rw [List.foldl_cons, ih, List.countP_cons, step_time_values_length]
    omega

/-- Source line 212: `n_time = len(time_values)` counts exactly the
lines that matched the time regex. -/
theorem parseLines_n_time (lines : List Line) :
    (parseLines lines).time_values.length = lines.countP Line.isParsedTime := by
  unfold parseLines
  rw [commitCurrent_time_values, foldl_step_time_values_length]
  simp [initState]

/-! ### Dimension-scan lemmas -/

/-- Length of the value sequence of the first cell with a nonempty
value sequence; `0` when every cell is empty. -/
def firstPopulatedLenCells (cells : List Cell) : Nat :=
  match cells.find? (fun c => !c.values.isEmpty) with
  | some c => c.values.length
  | none => 0

/-- Modelled from the spec: `n_i` is "the length of the value sequence
of the first populated CellBlockRecord", over the committed time steps
in commit order. -/
def firstPopulatedLen (pd : List TimeData) : Nat :=
  firstPopulatedLenCells ((pd.map TimeData.data).flatten)

theorem dimScan_eq_foldl (pd : List TimeData) :
    dimScan pd = ((pd.map TimeData.data).flatten).foldl dimScanCell ⟨[], [], 0⟩ := by
  unfold dimScan
  rw [List.foldl_flatten, List.foldl_map]

theorem foldl_dimScanCell_k (cells : List Cell) : ∀ acc : DimAcc,
    (cells.foldl dimScanCell acc).k_values = acc.k_values ++ cells.map Cell.k := by
  induction cells with
  | nil => intro acc; simp
  | cons c rest ih => intro acc; simp [dimScanCell, ih]

theorem foldl_dimScanCell_j (cells : List Cell) : ∀ acc : DimAcc,
    (cells.foldl dimScanCell acc).j_values = acc.j_values ++ cells.map Cell.j := by
  induction cells with
  | nil => intro acc; simp
  | cons c rest ih => intro acc; simp [dimScanCell, ih]

theorem foldl_dimScanCell_i (cells : List Cell) : ∀ acc : DimAcc,
    (cells.foldl dimScanCell acc).i_count =
      if acc.i_count = 0 then firstPopulatedLenCells cells else acc.i_count := by
  induction cells with
  | nil => intro acc; simp [firstPopulatedLenCells]; split <;> simp_all
  | cons c rest ih =>
    intro acc
    rw [List.foldl_cons, ih]
    by_cases ha : acc.i_count = 0
    · by_cases hc : c.values.length = 0
      · have hemp : c.values.isEmpty = true := by
          cases hv : c.values with
          | nil => rfl
          | cons x xs => rw [hv] at hc; simp at hc
        simp [dimScanCell, ha, hc, firstPopulatedLenCells, List.find?, hemp]
      · have hemp : c.values.isEmpty = false := by
          cases hv : c.values with
          | nil => rw [hv] at hc; simp at hc
          | cons x xs => rfl
        simp [dimScanCell, ha, hc, firstPopulatedLenCells, List.find?, hemp]
    · simp [dimScanCell, ha]

theorem dimScan_k (pd : List TimeData) :
    (dimScan pd).k_values = ((pd.map TimeData.data).flatten).map Cell.k := by
  rw [dimScan_eq_foldl, foldl_dimScanCell_k]; rfl

theorem dimScan_j (pd : List TimeData) :
    (dimScan pd).j_values = ((pd.map TimeData.data).flatten).map Cell.j := by
  rw [dimScan_eq_foldl, foldl_dimScanCell_j]; rfl

theorem max?_of_ne_nil {l : List Nat} (h : l ≠ []) : ∃ m, l.max? = some m := by
  cases l with
  | nil => exact absurd rfl h
  | cons a as => exact ⟨as.foldl max a, rfl⟩

/-- A cell of a committed record shows up in the flattened cell list. -/
theorem mem_flatten_of_record {pd : List TimeData} {n : Nat} {td : TimeData}
    (hn : pd[n]? = some td) {c : Cell} (hc : c ∈ td.data) :
    c ∈ (pd.map TimeData.data).flatten := by
  have htd : td ∈ pd := by
    have := List.getElem?_eq_some_iff.mp hn
    obtain ⟨hlt, heq⟩ := this
    exact heq ▸ List.getElem_mem hlt
  exact List.mem_flatten.mpr ⟨td.data, List.mem_map_of_mem TimeData.data htd, hc⟩

/-! ### Fill-loop lemmas -/

theorem setSlice_at (a : Arr) (n_i j k t : Nat) (vs : List Val) (i : Nat)
    (h : i < n_i) : setSlice a n_i j k t vs i j k t = vs.getD i 0 := by
  unfold setSlice
  simp [h]

theorem setSlice_ne (a : Arr) (n_i j k t : Nat) (vs : List Val)
    (i j' k' t' : Nat) (h : ¬(i < n_i ∧ j' = j ∧ k' = k ∧ t' = t)) :
    setSlice a n_i j k t vs i j' k' t' = a i j' k' t' := if_neg h

/-- Cells of one record write only at their own time index. -/
theorem foldl_pureFillCell_frame_t (n_i : Nat) (time : Val) (t : Nat)
    (cells : List Cell) : ∀ (acc : Arr × List Warning) (i j0 k0 t0 : Nat), t0 ≠ t →
    (cells.foldl (pureFillCell n_i time t) acc).1 i j0 k0 t0 = acc.1 i j0 k0 t0 := by
  induction cells with
  | nil => intro acc i j0 k0 t0 _; rfl
  | cons c rest ih =>
    intro acc i j0 k0 t0 ht
    rw [List.foldl_cons, ih _ i j0 k0 t0 ht]
    unfold pureFillCell
    by_cases hc : c.values.length = n_i
    · simp only [hc, if_pos rfl]
      exact setSlice_ne _ _ _ _ _ _ _ _ _ _ (by tauto)
    · simp [hc]

/-- Cells that either mismatch `n_i` or sit at a different `(j, k)`
position leave a given column untouched. -/
theorem foldl_pureFillCell_frame_pt (n_i : Nat) (time : Val) (t j0 k0 : Nat)
    (cells : List Cell) : ∀ (acc : Arr × List Warning),
    (∀ c ∈ cells, c.values.length = n_i → ¬(c.j - 1 = j0 ∧ c.k - 1 = k0)) →
    ∀ i t0, (cells.foldl (pureFillCell n_i time t) acc).1 i j0 k0 t0 = acc.1 i j0 k0 t0 := by
  induction cells with
  | nil => intro acc _ i t0; rfl
  | cons c rest ih =>
    intro acc hno i t0
    rw [List.foldl_cons,
      ih _ (fun c' hc' => hno c' (List.mem_cons_of_mem _ hc')) i t0]
    unfold pureFillCell
    by_cases hc : c.values.length = n_i
    · have hpos := hno c (List.mem_cons_self _ _) hc
      simp only [hc, if_pos rfl]
      exact setSlice_ne _ _ _ _ _ _ _ _ _ _ (by tauto)
    · simp [hc]

/-- Records at or after index `t1` write only at time indices `≥ t1`. -/
theorem pureFillFrom_frame_lt (n_i : Nat) (pd : List TimeData) :
    ∀ (t1 : Nat) (acc : Arr × List Warning) (i j0 k0 t0 : Nat), t0 < t1 →
    (pureFillFrom n_i t1 acc pd).1 i j0 k0 t0 = acc.1 i j0 k0 t0 := by
  induction pd with
  | nil => intro t1 acc i j0 k0 t0 _; rfl
  | cons td rest ih =>
    intro t1 acc i j0 k0 t0 ht
    unfold pureFillFrom
    rw [ih (t1 + 1) _ i j0 k0 t0 (by omega)]
    exact foldl_pureFillCell_frame_t _ _ _ _ _ _ _ _ _ (by omega)

/-- Last-writer value: if cell `c` of the record at position `n` matches
`n_i` and no later cell of the same record rewrites the same `(k, j)`
pair with a matching length, the final array holds `c`'s values on that
column.  All indices involved are the report's 1-based ones. -/
theorem pureFillFrom_last_writer (n_i : Nat) (pre post : List Cell) (c : Cell)
    (hc : c.values.length = n_i) (hck : 1 ≤ c.k) (hcj : 1 ≤ c.j)
    (hpost1 : ∀ c' ∈ post, 1 ≤ c'.k ∧ 1 ≤ c'.j)
    (hpost2 : ∀ c' ∈ post, ¬(c'.k = c.k ∧ c'.j = c.j ∧ c'.values.length = n_i)) :
    ∀ (pd : List TimeData) (n off : Nat) (td : TimeData) (acc : Arr × List Warning),
    pd[n]? = some td → td.data = pre ++ c :: post →
    ∀ i, i < n_i →
    (pureFillFrom n_i off acc pd).1 i (c.j - 1) (c.k - 1) (off + n) = c.values.getD i 0 := by
  intro pd
  induction pd with
  | nil => intro n off td acc hn; simp at hn
  | cons td0 rest ih =>
    intro n off td acc hn hdata i hi
    cases n with
    | zero =>
      rw [List.getElem?_cons_zero] at hn
      injection hn with hn
      subst hn
      unfold pureFillFrom
      rw [pureFillFrom_frame_lt _ _ _ _ _ _ _ _ (by omega)]
      rw [hdata, List.foldl_append, List.foldl_cons]
      have hpostfr := foldl_pureFillCell_frame_pt n_i td0.time off (c.j - 1) (c.k - 1) post
        ((pureFillCell n_i td0.time off (List.foldl (pureFillCell n_i td0.time off) acc pre) c))
        (by
          intro c' hc' hlen'
          obtain ⟨hk', hj'⟩ := hpost1 c' hc'
          intro ⟨hje, hke⟩
          exact hpost2 c' hc' ⟨by omega, by omega, hlen'⟩)
      rw [hpostfr i (off + 0)]
      unfold pureFillCell
      simp only [hc, if_pos rfl]
      have : off + 0 = off := by omega
      rw [this]
      exact setSlice_at _ _ _ _ _ _ _ hi
    | succ n' =>
      rw [List.getElem?_cons_succ] at hn
      unfold pureFillFrom
      have : off + (n' + 1) = (off + 1) + n' := by omega
      rw [this]
      exact ih n' (off + 1) td _ hn hdata i hi

/-- No-writer columns keep their incoming value: if no matching-length
cell of any record targets the column `(j0, k0, t0)`, the fill leaves it
unchanged. -/
theorem pureFillFrom_frame_pt (n_i j0 k0 : Nat) (pd : List TimeData) :
    ∀ (off : Nat) (acc : Arr × List Warning) (t0 : Nat),
    (∀ n td, pd[n]? = some td → off + n = t0 →
      ∀ c ∈ td.data, c.values.length = n_i → ¬(c.j - 1 = j0 ∧ c.k - 1 = k0)) →
    ∀ i, (pureFillFrom n_i off acc pd).1 i j0 k0 t0 = acc.1 i j0 k0 t0 := by
  induction pd with
  | nil => intro off acc t0 _ i; rfl
  | cons td0 rest ih =>
    intro off acc t0 hno i
    unfold pureFillFrom
    rw [ih (off + 1) _ t0 (fun n td hn hoff => by
      refine hno (n + 1) td ?_ (by omega)
      rw [List.getElem?_cons_succ]; exact hn) i]
    by_cases ht : t0 = off
    · exact foldl_pureFillCell_frame_pt _ _ _ _ _ _ _
        (hno 0 td0 (List.getElem?_cons_zero) (by omega)) _ _
    · exact foldl_pureFillCell_frame_t _ _ _ _ _ _ _ _ _ ht

/-- Warnings only accumulate. -/
theorem foldl_pureFillCell_warn_mono (n_i : Nat) (time : Val) (t : Nat)
    (cells : List Cell) : ∀ (acc : Arr × List Warning) (w : Warning),
    w ∈ acc.2 → w ∈ (cells.foldl (pureFillCell n_i time t) acc).2 := by
  induction cells with
  | nil => intro acc w hw; exact hw
  | cons c rest ih =>
    intro acc w hw
    rw [List.foldl_cons]
    refine ih _ w ?_
    unfold pureFillCell
    by_cases hc : c.values.length = n_i
    · simpa [hc] using hw
    · simp only [hc, if_neg hc]
      exact List.mem_append_left _ hw

/-- A mismatched cell deposits its warning. -/
theorem foldl_pureFillCell_warn_mem (n_i : Nat) (time : Val) (t : Nat)
    (cells : List Cell) (c : Cell) (hc : c ∈ cells)
    (hlen : ¬ c.values.length = n_i) :
    ∀ acc : Arr × List Warning,
    warnOf n_i time c ∈ (cells.foldl (pureFillCell n_i time t) acc).2 := by
  induction cells with
  | nil => cases hc
  | cons c0 rest ih =>
    intro acc
    rw [List.foldl_cons]
    rcases List.mem_cons.mp hc with h0 | hrest
    · subst h0
      refine foldl_pureFillCell_warn_mono _ _ _ _ _ _ ?_
      unfold pureFillCell
      simp [hlen]
    · exact ih hrest _

theorem pureFillFrom_warn_mono (n_i : Nat) (pd : List TimeData) :
    ∀ (off : Nat) (acc : Arr × List Warning) (w : Warning),
    w ∈ acc.2 → w ∈ (pureFillFrom n_i off acc pd).2 := by
  induction pd with
  | nil => intro off acc w hw; exact hw
  | cons td rest ih =>
    intro off acc w hw
    unfold pureFillFrom
    exact ih _ _ w (foldl_pureFillCell_warn_mono _ _ _ _ _ w hw)

/-- A mismatched cell of any record deposits its warning in the final
warning list. -/
theorem pureFillFrom_warn_mem (n_i : Nat) (pd : List TimeData) :
    ∀ (n : Nat) (td : TimeData) (c : Cell), pd[n]? = some td → c ∈ td.data →
    ¬ c.values.length = n_i →
    ∀ (off : Nat) (acc : Arr × List Warning),
    warnOf n_i td.time c ∈ (pureFillFrom n_i off acc pd).2 := by
  induction pd with
  | nil => intro n td c hn; simp at hn
  | cons td0 rest ih =>
    intro n td c hn hc hlen off acc
    cases n with
    | zero =>
      rw [List.getElem?_cons_zero] at hn
      injection hn with hn
      subst hn
      unfold pureFillFrom
      exact pureFillFrom_warn_mono _ _ _ _ _
        (foldl_pureFillCell_warn_mem _ _ _ _ _ hc hlen _)
    | succ n' =>
      rw [List.getElem?_cons_succ] at hn
      unfold pureFillFrom
      exact ih n' td c hn hc hlen _ _

/-! ### In-bounds writes: the real fill agrees with the proof-side one -/

theorem le_foldl_max (l : List Nat) : ∀ a : Nat,
    a ≤ l.foldl max a ∧ ∀ x ∈ l, x ≤ l.foldl max a := by
  induction l with
  | nil => intro a; exact ⟨le_refl a, by simp⟩
  | cons b t ih =>
    intro a
    obtain ⟨h1, h2⟩ := ih (max a b)
    refine ⟨le_trans (le_max_left a b) h1, ?_⟩
    intro x hx
    rcases List.mem_cons.mp hx with rfl | hxt
    · exact le_trans (le_max_right a x) h1
    · exact h2 x hxt

theorem le_max?_of_mem {l : List Nat} {m x : Nat}
    (hm : l.max? = some m) (hx : x ∈ l) : x ≤ m := by
  cases l with
  | nil => cases hx
  | cons a t =>
    have h0 : (a :: t).max? = some (t.foldl max a) := rfl
    rw [hm] at h0
    injection h0 with h0
    rw [h0]
    rcases List.mem_cons.mp hx with rfl | hxt
    · exact (le_foldl_max t x).1
    · exact (le_foldl_max t a).2 x hxt

theorem pyIdx_one_based {n j : Nat} (h1 : 1 ≤ j) (h2 : j ≤ n) :
    pyIdx n ((j : Int) - 1) = some (j - 1) := by
  unfold pyIdx
  rw [if_pos (by omega), if_pos (by omega)]
  congr 1
  omega

theorem pyIdx_nat_lt {n t : Nat} (h : t < n) : pyIdx n (t : Int) = some t := by
  unfold pyIdx
  rw [if_pos (by omega), if_pos (by omega)]
  simp

/-- When every matching-length block of the step has 1-based indices
within the axis sizes and the time index is in range, the inner fill
raises nothing and agrees with the proof-side fold. -/
theorem fillCells_eq_pure (n_i n_j n_k n_time : Nat) (time : Val) (t_idx : Nat)
    (ht : t_idx < n_time) (cells : List Cell)
    (hcells : ∀ c ∈ cells, c.values.length = n_i →
      1 ≤ c.j ∧ c.j ≤ n_j ∧ 1 ≤ c.k ∧ c.k ≤ n_k) :
    ∀ acc, fillCells n_i n_j n_k n_time time t_idx cells acc =
      .ok (cells.foldl (pureFillCell n_i time t_idx) acc) := by
  induction cells with
  | nil => intro acc; rfl
  | cons c rest ih =>
    intro acc
    have hrest : ∀ c' ∈ rest, c'.values.length = n_i →
        1 ≤ c'.j ∧ c'.j ≤ n_j ∧ 1 ≤ c'.k ∧ c'.k ≤ n_k :=
      fun c' h => hcells c' (List.mem_cons_of_mem _ h)
    have hcell : fillCell n_i n_j n_k n_time time t_idx acc c =
        .ok (pureFillCell n_i time t_idx acc c) := by
      unfold fillCell pureFillCell
      by_cases hc : c.values.length = n_i
      · obtain ⟨h1, h2, h3, h4⟩ := hcells c (List.mem_cons_self _ _) hc
        rw [if_pos hc, if_pos hc, pyIdx_one_based h1 h2, pyIdx_one_based h3 h4,
          pyIdx_nat_lt ht]
      · rw [if_neg hc, if_neg hc]
    unfold fillCells
    rw [hcell, List.foldl_cons]
    exact ih hrest _

/-- When every matching-length block of every record has in-range
1-based indices and there are at most `n_time` records left, the fill
loop completes and agrees with the proof-side loop. -/
theorem fillFrom_eq_pure (n_i n_j n_k n_time : Nat) (pd : List TimeData)
    (hall : ∀ td ∈ pd, ∀ c ∈ td.data, c.values.length = n_i →
      1 ≤ c.j ∧ c.j ≤ n_j ∧ 1 ≤ c.k ∧ c.k ≤ n_k) :
    ∀ off : Nat, off + pd.length ≤ n_time → ∀ acc,
    fillFrom n_i n_j n_k n_time off acc pd = .ok (pureFillFrom n_i off acc pd) := by
  induction pd with
  | nil => intro off _ acc; rfl
  | cons td rest ih =>
    intro off hoff acc
    have hlen : off < n_time ∧ (off + 1) + rest.length ≤ n_time := by
      simp only [List.length_cons] at hoff
      omega
    have hrest : ∀ td' ∈ rest, ∀ c ∈ td'.data, c.values.length = n_i →
        1 ≤ c.j ∧ c.j ≤ n_j ∧ 1 ≤ c.k ∧ c.k ≤ n_k :=
      fun td' h => hall td' (List.mem_cons_of_mem _ h)
    unfold fillFrom pureFillFrom
    rw [fillCells_eq_pure n_i n_j n_k n_time td.time off hlen.1 td.data
      (hall td (List.mem_cons_self _ _)) acc]
    exact ih hrest (off + 1) hlen.2 _

theorem mem_of_getElem?_some {α : Type} {l : List α} {n : Nat} {a : α}
    (h : l[n]? = some a) : a ∈ l := by
  obtain ⟨hlt, heq⟩ := List.getElem?_eq_some_iff.mp h
  exact heq ▸ List.getElem_mem hlt

/-! ### Lemmas about reports without cell-block headers -/

/-- Without a matched K/J header no cell block is ever opened and no
time step is ever committed. -/
theorem foldl_step_no_kj (lines : List Line)
    (hno : ∀ l ∈ lines, Line.isParsedKJ l = false) :
    ∀ s : ParseState, s.current_data = [] →
    (lines.foldl step s).current_data = [] ∧
    (lines.foldl step s).pressure_data = s.pressure_data := by
  induction lines with
  | nil => intro s hs; exact ⟨hs, rfl⟩
  | cons l rest ih =>
    intro s hs
    have hrest : ∀ l' ∈ rest, Line.isParsedKJ l' = false :=
      fun l' h => hno l' (List.mem_cons_of_mem _ h)
    have hstep : (step s l).current_data = [] ∧
        (step s l).pressure_data = s.pressure_data := by
      cases l with
      | timeLine p =>
        cases p with
        | some td =>
          obtain ⟨t, d⟩ := td
          simp [step, commitCurrent_of_empty s hs]
        | none => simp [step, commitCurrent_of_empty s hs, hs]
      | kjLine p =>
        cases p with
        | some kj =>
          -- impossible: this line is a parsed header
          have := hno (Line.kjLine (some kj)) (List.mem_cons_self _ _)
          simp [Line.isParsedKJ] at this
        | none => exact ⟨hs, rfl⟩
      | dataLine p =>
        cases p with
        | some vs => simp [step, hs]
        | none => exact ⟨hs, rfl⟩
      | other => exact ⟨hs, rfl⟩
    rw [List.foldl_cons]
    obtain ⟨h1, h2⟩ := ih hrest (step s l) hstep.1
    exact ⟨h1, h2.trans hstep.2⟩

theorem parseLines_no_kj (lines : List Line)
    (hno : ∀ l ∈ lines, Line.isParsedKJ l = false) :
    (parseLines lines).pressure_data = [] := by
  unfold parseLines
  obtain ⟨h1, h2⟩ := foldl_step_no_kj lines hno initState rfl
  rw [commitCurrent_of_empty _ h1, h2]
  rfl

/-! ### Data-line step lemmas -/

theorem extendLast_of_ne_nil (cells : List Cell) (vs : List Val)
    (h : cells ≠ []) :
    extendLast cells vs =
      cells.dropLast ++
        [{ cells.getLastD { k := 0, j := 0, values := [] } with
            values := (cells.getLastD { k := 0, j := 0, values := [] }).values ++ vs }] := by
  unfold extendLast
  rw [List.getLastD_eq_getLast?]
  cases hl : cells.getLast? with
  | none => exact absurd (List.getLast?_eq_none_iff.mp hl) h
  | some c => rfl

/-! ### End-to-end evaluation helpers for `CMG_rwo2npy` -/

theorem CMG_rwo2npy_result (fs : FS) (rwoLines : List Line)
    (rwo_folder_path case_name property save_folder_path : String) (is_save : Bool)
    (hex : fs.pathExists (pathJoin rwo_folder_path (case_name ++ "_" ++ property ++ ".rwo")) = true)
    {nk nj : Nat}
    (hk : (dimScan (parseLines rwoLines).pressure_data).k_values.max? = some nk)
    (hj : (dimScan (parseLines rwoLines).pressure_data).j_values.max? = some nj)
    {filled : Arr × List Warning}
    (hfill : fillArray (dimScan (parseLines rwoLines).pressure_data).i_count nj nk
        (parseLines rwoLines).time_values.length
        (parseLines rwoLines).pressure_data = .ok filled) :
    CMG_rwo2npy fs rwoLines rwo_folder_path case_name property is_save save_folder_path =
      ([.mkdir save_folder_path] ++ filled.2.map Effect.printWarning ++
        (if is_save then
          [.saveArray (pathJoin save_folder_path (case_name ++ "_" ++ property ++ ".npy"))]
         else []),
       .ok { shape := ((dimScan (parseLines rwoLines).pressure_data).i_count, nj, nk,
                       (parseLines rwoLines).time_values.length),
             get := filled.1 }) := by
  unfold CMG_rwo2npy
  simp only [hex, Bool.not_true, Bool.false_eq_true, if_false, hk, hj]
  rw [hfill]

theorem CMG_rwo2npy_fill_error (fs : FS) (rwoLines : List Line)
    (rwo_folder_path case_name property save_folder_path : String) (is_save : Bool)
    (hex : fs.pathExists (pathJoin rwo_folder_path (case_name ++ "_" ++ property ++ ".rwo")) = true)
    {nk nj : Nat}
    (hk : (dimScan (parseLines rwoLines).pressure_data).k_values.max? = some nk)
    (hj : (dimScan (parseLines rwoLines).pressure_data).j_values.max? = some nj)
    {ws : List Warning}
    (hfill : fillArray (dimScan (parseLines rwoLines).pressure_data).i_count nj nk
        (parseLines rwoLines).time_values.length
        (parseLines rwoLines).pressure_data = .error ws) :
    CMG_rwo2npy fs rwoLines rwo_folder_path case_name property is_save save_folder_path =
      ([.mkdir save_folder_path] ++ ws.map Effect.printWarning, .error .indexError) := by
  unfold CMG_rwo2npy
  simp only [hex, Bool.not_true, Bool.false_eq_true, if_false, hk, hj]
  rw [hfill]

theorem CMG_rwo2npy_no_cells (fs : FS) (rwoLines : List Line)
    (rwo_folder_path case_name property save_folder_path : String) (is_save : Bool)
    (hex : fs.pathExists (pathJoin rwo_folder_path (case_name ++ "_" ++ property ++ ".rwo")) = true)
    (hfl : ((parseLines rwoLines).pressure_data.map TimeData.data).flatten = []) :
    CMG_rwo2npy fs rwoLines rwo_folder_path case_name property is_save save_folder_path =
      ([.mkdir save_folder_path], .error (.valueError "max() arg is an empty sequence")) := by
  unfold CMG_rwo2npy
  simp only [hex, Bool.not_true, Bool.false_eq_true, if_false]
  have hk : (dimScan (parseLines rwoLines).pressure_data).k_values = [] := by
    rw [dimScan_k, hfl]; rfl
  have hj : (dimScan (parseLines rwoLines).pressure_data).j_values = [] := by
    rw [dimScan_j, hfl]; rfl
  rw [hk, hj]
  rfl

/-! ### Concrete example inputs -/

/-- Report with two blocks at the same `(K, J)` pair in one time step. -/
def dupPairLines : List Line :=
  [.timeLine (some (1, "d")), .kjLine (some (1, 1)), .dataLine (some [7]),
   .kjLine (some (1, 1)), .dataLine (some [8])]

/-- Report whose first time marker accumulates no cell block. -/
def emptyStepLines : List Line :=
  [.timeLine (some (1, "d1")), .timeLine (some (2, "d2")),
   .kjLine (some (1, 1)), .dataLine (some [5])]

/-- Report with a matching block and then an empty block at the same
`(K, J)` pair. -/
def dupMismatchLines : List Line :=
  [.timeLine (some (1, "d")), .kjLine (some (1, 1)), .dataLine (some [7]),
   .kjLine (some (1, 1))]

/-- Minimal well-formed report: one time step, one block, one value. -/
def oneBlockLines : List Line :=
  [.timeLine (some (1, "d")), .kjLine (some (1, 1)), .dataLine (some [3])]

/-- Report whose first cell block stays empty and whose second block
holds one value. -/
def emptyFirstBlockLines : List Line :=
  [.timeLine (some (1, "d")), .kjLine (some (1, 1)), .kjLine (some (2, 1)),
   .dataLine (some [5])]

/-- File system holding only the raw report `rwo/case_PRES.rwo`. -/
def rwoFS : FS := ⟨[], ["rwo/case_PRES.rwo"]⟩

/-! ### Claim theorems -/

/-- C5: each of the three stage functions raises `FileNotFoundError`
when its input directory or expected input file is missing, eagerly,
with an empty effect trace — no file written, no directory created, no
process launched. -/
theorem C5_notfound_eager (fs : FS) (sr3_folder_path case_name property : String)
    (is_gmc_property : Bool) (precision : Nat)
    (rwd_folder_path cmg_version rwo_folder_path save_folder_path : String)
    (is_save : Bool) (rwoLines : List Line) :
    (fs.isDir sr3_folder_path = false →
      generate_CMG_rwd fs sr3_folder_path case_name property is_gmc_property precision =
        ([], some (.fileNotFound ("Folder not found: " ++ sr3_folder_path)))) ∧
    (fs.isDir sr3_folder_path = true →
      fs.isFile (pathJoin sr3_folder_path
        (if is_gmc_property then case_name ++ ".gmch.sr3" else case_name ++ ".sr3")) = false →
      generate_CMG_rwd fs sr3_folder_path case_name property is_gmc_property precision =
        ([], some (.fileNotFound ("Case not found: " ++ pathJoin sr3_folder_path
          (if is_gmc_property then case_name ++ ".gmch.sr3" else case_name ++ ".sr3"))))) ∧
    (fs.isDir rwd_folder_path = false →
      run_CMG_rwd_report fs rwd_folder_path case_name cmg_version =
        ([], some (.fileNotFound ("Folder not found: " ++ rwd_folder_path)))) ∧
    (fs.isDir rwd_folder_path = true →
      fs.isFile (pathJoin rwd_folder_path (case_name ++ ".rwd")) = false →
      run_CMG_rwd_report fs rwd_folder_path case_name cmg_version =
        ([], some (.fileNotFound
          ("rwd file not found: " ++ pathJoin rwd_folder_path (case_name ++ ".rwd"))))) ∧
    (fs.pathExists (pathJoin rwo_folder_path (case_name ++ "_" ++ property ++ ".rwo")) = false →
      CMG_rwo2npy fs rwoLines rwo_folder_path case_name property is_save save_folder_path =
        ([], .error (.fileNotFound ("File not found: " ++
          pathJoin rwo_folder_path (case_name ++ "_" ++ property ++ ".rwo"))))) := by
  refine ⟨?_, ?_, ?_, ?_, ?_⟩
  · intro h; unfold generate_CMG_rwd; simp [h]
  · intro h1 h2; unfold generate_CMG_rwd; simp [h1, h2]
  · intro h; unfold run_CMG_rwd_report; simp [h]
  · intro h1 h2; unfold run_CMG_rwd_report; simp [h1, h2]
  · intro h; unfold CMG_rwo2npy; simp [h]

/-- Witness for C5 on the empty file system: all five missing-input
situations produce the `FileNotFoundError` with no side effect. -/
theorem C5_witness :
    generate_CMG_rwd ⟨[], []⟩ "sr3" "case" "PRES" false 4 =
      ([], some (.fileNotFound "Folder not found: sr3")) ∧
    run_CMG_rwd_report ⟨[], []⟩ "rwd" "case" "ese-ts2win-v2024.20" =
      ([], some (.fileNotFound "Folder not found: rwd")) ∧
    CMG_rwo2npy ⟨[], []⟩ [] "rwo" "case" "PRES" false "results" =
      ([], .error (.fileNotFound "File not found: rwo/case_PRES.rwo")) := by
  refine ⟨?_, ?_, ?_⟩
  · exact ((C5_notfound_eager ⟨[], []⟩ "sr3" "case" "PRES" false 4
      "rwd" "ese-ts2win-v2024.20" "rwo" "results" false []).1 (by decide)).trans (by decide)
  · exact (((C5_notfound_eager ⟨[], []⟩ "sr3" "case" "PRES" false 4
      "rwd" "ese-ts2win-v2024.20" "rwo" "results" false []).2.2.1) (by decide)).trans (by decide)
  · exact (((C5_notfound_eager ⟨[], []⟩ "sr3" "case" "PRES" false 4
      "rwd" "ese-ts2win-v2024.20" "rwo" "results" false []).2.2.2.2) (by decide)).trans (by rfl)

/-- C6 (code bug evidence): with the request folder and file present but
an unrecognized version string, `run_CMG_rwd_report` prints the
not-implemented message and then raises — the locals `exe_path` and
`cd_path` were never assigned, so building the command line raises an
unbound-local error; no executable is launched. -/
theorem C6_unknown_version_raises :
    run_CMG_rwd_report ⟨["rwd"], ["rwd/case.rwd"]⟩ "rwd" "case" "v0" =
      ([.printMsg "The CMG version v0 is not implemented yet ....."],
       some (.nameError "cd_path")) := by decide

/-- Counterexample to C1 as stated: in `dupPairLines` the first cell
block `(K=1, J=1, values=[7])` has the inferred length `n_i = 1`, yet
the returned array holds `8` — the later block with the same `(K, J)`
pair overwrote the slice, so the array does not equal the first block's
values. -/
theorem C1_counterexample :
    (parseLines dupPairLines).pressure_data =
      [{ time := 1, date := "d",
         data := [{ k := 1, j := 1, values := [7] },
                  { k := 1, j := 1, values := [8] }] }] ∧
    (dimScan (parseLines dupPairLines).pressure_data).i_count = 1 ∧
    resGet (CMG_rwo2npy rwoFS dupPairLines "rwo" "case" "PRES" false "results").2
        0 0 0 0 = some 8 ∧
    ¬ resGet (CMG_rwo2npy rwoFS dupPairLines "rwo" "case" "PRES" false "results").2
        0 0 0 0 = some 7 := by decide

/-- Counterexample to C2 as stated: in `emptyStepLines` the first time
marker commits no cell block, so only one time step is committed, yet
the returned array's fourth axis has size 2. -/
theorem C2_counterexample :
    (resShape (CMG_rwo2npy rwoFS emptyStepLines "rwo" "case" "PRES" false "results").2).map
      (fun sh => sh.2.2.2) = some 2 ∧
    (parseLines emptyStepLines).pressure_data.length = 1 := by decide

/-- Counterexample to C4 as stated: in `dupMismatchLines` the second
cell block `(K=1, J=1, values=[])` mismatches `n_i = 1`, yet its slice
`[:, 0, 0, 0]` is not all-zero — the earlier matching block with the
same `(K, J)` pair wrote `7` there. -/
theorem C4_counterexample :
    (parseLines dupMismatchLines).pressure_data =
      [{ time := 1, date := "d",
         data := [{ k := 1, j := 1, values := [7] },
                  { k := 1, j := 1, values := [] }] }] ∧
    (dimScan (parseLines dupMismatchLines).pressure_data).i_count = 1 ∧
    ¬ resGet (CMG_rwo2npy rwoFS dupMismatchLines "rwo" "case" "PRES" false "results").2
        0 0 0 0 = some 0 := by decide

/-- Counterexample to C7 as stated: with persistence NOT requested
(`is_save = false`) the call still creates the save destination
directory. -/
theorem C7_counterexample :
    (CMG_rwo2npy rwoFS oneBlockLines "rwo" "case" "PRES" false "results").1 =
      [.mkdir "results"] ∧
    resOk (CMG_rwo2npy rwoFS oneBlockLines "rwo" "case" "PRES" false "results").2 = true := by
  decide

/-- Counterexample to C8 as stated: in `emptyFirstBlockLines` the first
cell block encountered has an empty value sequence, yet the inferred
`n_i` is 1 (taken from the second block), not 0. -/
theorem C8_counterexample :
    (parseLines emptyFirstBlockLines).pressure_data =
      [{ time := 1, date := "d",
         data := [{ k := 1, j := 1, values := [] },
                  { k := 2, j := 1, values := [5] }] }] ∧
    (resShape (CMG_rwo2npy rwoFS emptyFirstBlockLines "rwo" "case" "PRES" false "results").2).map
      (fun sh => sh.1) = some 1 ∧
    ¬ (resShape (CMG_rwo2npy rwoFS emptyFirstBlockLines "rwo" "case" "PRES" false "results").2).map
      (fun sh => sh.1) = some 0 := by decide

theorem CMG_rwo2npy_notfound (fs : FS) (rwoLines : List Line)
    (rwo_folder_path case_name property save_folder_path : String) (is_save : Bool)
    (hex : fs.pathExists (pathJoin rwo_folder_path (case_name ++ "_" ++ property ++ ".rwo")) = false) :
    CMG_rwo2npy fs rwoLines rwo_folder_path case_name property is_save save_folder_path =
      ([], .error (.fileNotFound ("File not found: " ++
        pathJoin rwo_folder_path (case_name ++ "_" ++ property ++ ".rwo")))) := by
  unfold CMG_rwo2npy
  simp [hex]

/-- C2 amended: the fourth axis of the returned array has size equal to
the number of time-marker lines that match the time regex (each of
which appends to `time_values`), not the number of committed time
steps. -/
theorem C2_n_time_is_marker_count (fs : FS) (rwoLines : List Line)
    (rwo_folder_path case_name property save_folder_path : String) (is_save : Bool)
    (h : resOk (CMG_rwo2npy fs rwoLines rwo_folder_path case_name property is_save save_folder_path).2 = true) :
    (resShape (CMG_rwo2npy fs rwoLines rwo_folder_path case_name property is_save save_folder_path).2).map
      (fun sh => sh.2.2.2) = some (rwoLines.countP Line.isParsedTime) := by
  by_cases hex : fs.pathExists (pathJoin rwo_folder_path (case_name ++ "_" ++ property ++ ".rwo")) = true
  · by_cases hfl : ((parseLines rwoLines).pressure_data.map TimeData.data).flatten = []
    · rw [CMG_rwo2npy_no_cells fs rwoLines _ _ _ _ _ hex hfl] at h
      simp [resOk] at h
    · have hkne : (dimScan (parseLines rwoLines).pressure_data).k_values ≠ [] := by
        rw [dimScan_k]
        exact fun he => hfl (List.map_eq_nil_iff.mp he)
      have hjne : (dimScan (parseLines rwoLines).pressure_data).j_values ≠ [] := by
        rw [dimScan_j]
        exact fun he => hfl (List.map_eq_nil_iff.mp he)
      obtain ⟨nk, hk⟩ := max?_of_ne_nil hkne
      obtain ⟨nj, hj⟩ := max?_of_ne_nil hjne
      cases hfa : fillArray (dimScan (parseLines rwoLines).pressure_data).i_count nj nk
          (parseLines rwoLines).time_values.length (parseLines rwoLines).pressure_data with
      | error ws =>
        rw [CMG_rwo2npy_fill_error fs rwoLines _ _ _ _ _ hex hk hj hfa] at h
        simp [resOk] at h
      | ok filled =>
        rw [CMG_rwo2npy_result fs rwoLines _ _ _ _ _ hex hk hj hfa]
        simp [resShape, parseLines_n_time]
  · have hex' : fs.pathExists (pathJoin rwo_folder_path (case_name ++ "_" ++ property ++ ".rwo")) = false := by
      simpa using hex
    rw [CMG_rwo2npy_notfound fs rwoLines _ _ _ _ _ hex'] at h
    simp [resOk] at h

/-- Witness for C2 amended on `emptyStepLines`: two parsed time markers
give a fourth axis of size 2. -/
theorem C2_witness :
    resOk (CMG_rwo2npy rwoFS emptyStepLines "rwo" "case" "PRES" false "results").2 = true ∧
    (resShape (CMG_rwo2npy rwoFS emptyStepLines "rwo" "case" "PRES" false "results").2).map
      (fun sh => sh.2.2.2) = some 2 :=
  ⟨by decide,
   (C2_n_time_is_marker_count rwoFS emptyStepLines "rwo" "case" "PRES" "results" false
     (by decide)).trans (by decide)⟩

theorem countP_parsedTime_of_wf (lines : List Line) (hwf : wellFormedTimes lines) :
    lines.countP Line.isParsedTime = lines.countP Line.isTime := by
  refine List.countP_congr ?_
  intro l hl
  constructor
  · intro hp
    cases l with
    | timeLine p => rfl
    | kjLine p => simp [Line.isParsedTime] at hp
    | dataLine p => simp [Line.isParsedTime] at hp
    | other => simp [Line.isParsedTime] at hp
  · intro ht
    exact hwf l hl ht

/-- C3: for a well-formed raw report (every time-prefixed line matches
the time regex), the fourth axis of the returned array has size equal
to the number of time-marker lines, in encounter order. -/
theorem C3_n_time_counts_markers (fs : FS) (rwoLines : List Line)
    (rwo_folder_path case_name property save_folder_path : String) (is_save : Bool)
    (hwf : wellFormedTimes rwoLines)
    (h : resOk (CMG_rwo2npy fs rwoLines rwo_folder_path case_name property is_save save_folder_path).2 = true) :
    (resShape (CMG_rwo2npy fs rwoLines rwo_folder_path case_name property is_save save_folder_path).2).map
      (fun sh => sh.2.2.2) = some (rwoLines.countP Line.isTime) := by
  by_cases hex : fs.pathExists (pathJoin rwo_folder_path (case_name ++ "_" ++ property ++ ".rwo")) = true
  · by_cases hfl : ((parseLines rwoLines).pressure_data.map TimeData.data).flatten = []
    · rw [CMG_rwo2npy_no_cells fs rwoLines _ _ _ _ _ hex hfl] at h
      simp [resOk] at h
    · have hkne : (dimScan (parseLines rwoLines).pressure_data).k_values ≠ [] := by
        rw [dimScan_k]
        exact fun he => hfl (List.map_eq_nil_iff.mp he)
      have hjne : (dimScan (parseLines rwoLines).pressure_data).j_values ≠ [] := by
        rw [dimScan_j]
        exact fun he => hfl (List.map_eq_nil_iff.mp he)
      obtain ⟨nk, hk⟩ := max?_of_ne_nil hkne
      obtain ⟨nj, hj⟩ := max?_of_ne_nil hjne
      cases hfa : fillArray (dimScan (parseLines rwoLines).pressure_data).i_count nj nk
          (parseLines rwoLines).time_values.length (parseLines rwoLines).pressure_data with
      | error ws =>
        rw [CMG_rwo2npy_fill_error fs rwoLines _ _ _ _ _ hex hk hj hfa] at h
        simp [resOk] at h
      | ok filled =>
        rw [CMG_rwo2npy_result fs rwoLines _ _ _ _ _ hex hk hj hfa]
        simp [resShape, parseLines_n_time, countP_parsedTime_of_wf rwoLines hwf]
  · have hex' : fs.pathExists (pathJoin rwo_folder_path (case_name ++ "_" ++ property ++ ".rwo")) = false := by
      simpa using hex
    rw [CMG_rwo2npy_notfound fs rwoLines _ _ _ _ _ hex'] at h
    simp [resOk] at h

/-- Witness for C3 on `oneBlockLines`: one time marker, fourth axis of
size 1. -/
theorem C3_witness :
    resOk (CMG_rwo2npy rwoFS oneBlockLines "rwo" "case" "PRES" false "results").2 = true ∧
    (resShape (CMG_rwo2npy rwoFS oneBlockLines "rwo" "case" "PRES" false "results").2).map
      (fun sh => sh.2.2.2) = some 1 :=
  ⟨by decide,
   (C3_n_time_counts_markers rwoFS oneBlockLines "rwo" "case" "PRES" "results" false
     (by unfold wellFormedTimes oneBlockLines; decide) (by decide)).trans (by decide)⟩

/-- C7 amended: once the raw report file exists, the call creates the
save destination directory unconditionally (it is the first effect,
before parsing, regardless of `is_save`); the serialized array file is
written exactly when persistence is requested and the call returns an
array. -/
theorem C7_mkdir_always_save_on_request (fs : FS) (rwoLines : List Line)
    (rwo_folder_path case_name property save_folder_path : String) (is_save : Bool)
    (hex : fs.pathExists (pathJoin rwo_folder_path (case_name ++ "_" ++ property ++ ".rwo")) = true) :
    (CMG_rwo2npy fs rwoLines rwo_folder_path case_name property is_save save_folder_path).1.head? =
      some (.mkdir save_folder_path) ∧
    ((∃ p, Effect.saveArray p ∈
        (CMG_rwo2npy fs rwoLines rwo_folder_path case_name property is_save save_folder_path).1) ↔
      (is_save = true ∧
       resOk (CMG_rwo2npy fs rwoLines rwo_folder_path case_name property is_save save_folder_path).2 = true)) := by
  by_cases hfl : ((parseLines rwoLines).pressure_data.map TimeData.data).flatten = []
  · rw [CMG_rwo2npy_no_cells fs rwoLines _ _ _ _ _ hex hfl]
    refine ⟨rfl, ?_⟩
    simp [resOk]
  · have hkne : (dimScan (parseLines rwoLines).pressure_data).k_values ≠ [] := by
      rw [dimScan_k]
      exact fun he => hfl (List.map_eq_nil_iff.mp he)
    have hjne : (dimScan (parseLines rwoLines).pressure_data).j_values ≠ [] := by
      rw [dimScan_j]
      exact fun he => hfl (List.map_eq_nil_iff.mp he)
    obtain ⟨nk, hk⟩ := max?_of_ne_nil hkne
    obtain ⟨nj, hj⟩ := max?_of_ne_nil hjne
    cases hfa : fillArray (dimScan (parseLines rwoLines).pressure_data).i_count nj nk
        (parseLines rwoLines).time_values.length (parseLines rwoLines).pressure_data with
    | error ws =>
      rw [CMG_rwo2npy_fill_error fs rwoLines _ _ _ _ _ hex hk hj hfa]
      refine ⟨rfl, ?_⟩
      constructor
      · intro ⟨p, hp⟩
        simp at hp
      · intro ⟨_, hfalse⟩
        simp [resOk] at hfalse
    | ok filled =>
      rw [CMG_rwo2npy_result fs rwoLines _ _ _ _ _ hex hk hj hfa]
      refine ⟨rfl, ?_⟩
      cases is_save with
    | false =>
      constructor
      · intro ⟨p, hp⟩
        simp at hp
      · intro ⟨hfalse, _⟩
        cases hfalse
    | true =>
      constructor
      · intro _
        exact ⟨rfl, rfl⟩
      · intro _
        refine ⟨pathJoin save_folder_path (case_name ++ "_" ++ property ++ ".npy"), ?_⟩
        refine List.mem_append_right _ ?_
        simp

/-- Witness for C7 amended on `oneBlockLines` with `is_save = true`. -/
theorem C7_witness :
    (CMG_rwo2npy rwoFS oneBlockLines "rwo" "case" "PRES" true "results").1.head? =
      some (.mkdir "results") ∧
    (∃ p, Effect.saveArray p ∈
      (CMG_rwo2npy rwoFS oneBlockLines "rwo" "case" "PRES" true "results").1) := by
  have h := C7_mkdir_always_save_on_request rwoFS oneBlockLines "rwo" "case" "PRES"
    "results" true (by decide)
  exact ⟨h.1, h.2.mpr ⟨rfl, by decide⟩⟩

/-- C8 amended: the inferred `n_i` is the value-sequence length of the
first cell block with a nonempty value sequence (in commit order), and
`0` when every block is empty — an empty first block is skipped, not
taken as `n_i = 0`. -/
theorem C8_n_i_first_populated (pd : List TimeData) :
    (dimScan pd).i_count = firstPopulatedLen pd := by
  rw [dimScan_eq_foldl, foldl_dimScanCell_i, firstPopulatedLen]
  simp

/-- C9: when the raw report file exists but contains no cell-block
header line, no time step is ever committed, and the dimension
inference raises the empty-`max` `ValueError` instead of returning an
array (after the unconditional save-folder `mkdir`). -/
theorem C9_no_header_raises (fs : FS) (rwoLines : List Line)
    (rwo_folder_path case_name property save_folder_path : String) (is_save : Bool)
    (hex : fs.pathExists (pathJoin rwo_folder_path (case_name ++ "_" ++ property ++ ".rwo")) = true)
    (hno : ∀ l ∈ rwoLines, Line.isParsedKJ l = false) :
    CMG_rwo2npy fs rwoLines rwo_folder_path case_name property is_save save_folder_path =
      ([.mkdir save_folder_path], .error (.valueError "max() arg is an empty sequence")) := by
  have hpd := parseLines_no_kj rwoLines hno
  refine CMG_rwo2npy_no_cells fs rwoLines _ _ _ _ _ hex ?_
  rw [hpd]
  rfl

/-- Witness for C9: an empty report file raises the `ValueError`. -/
theorem C9_witness :
    CMG_rwo2npy rwoFS [] "rwo" "case" "PRES" false "results" =
      ([.mkdir "results"], .error (.valueError "max() arg is an empty sequence")) :=
  C9_no_header_raises rwoFS [] "rwo" "case" "PRES" "results" false (by decide)
    (fun l hl => absurd hl (List.not_mem_nil l))

/-- C10: a parsed numeric data line is appended to the most recently
opened cell block; when no cell block is open the line leaves the
parser state unchanged — so it contributes nothing to the final parse
and hence to the result array. -/
theorem C10_data_line_discipline :
    (∀ (s : ParseState) (vs : List Val), s.current_data = [] →
      step s (.dataLine (some vs)) = s) ∧
    (∀ (xs ys : List Line) (vs : List Val),
      (xs.foldl step initState).current_data = [] →
      parseLines (xs ++ .dataLine (some vs) :: ys) = parseLines (xs ++ ys)) ∧
    (∀ (s : ParseState) (vs : List Val), ¬ s.current_data = [] →
      (step s (.dataLine (some vs))).current_data =
        s.current_data.dropLast ++
          [{ s.current_data.getLastD { k := 0, j := 0, values := [] } with
              values := (s.current_data.getLastD { k := 0, j := 0, values := [] }).values ++ vs }]) := by
  refine ⟨?_, ?_, ?_⟩
  · intro s vs h
    simp [step, h]
  · intro xs ys vs h
    have hS : step (xs.foldl step initState) (.dataLine (some vs)) = xs.foldl step initState := by
      simp [step, h]
    unfold parseLines
    rw [List.foldl_append, List.foldl_append, List.foldl_cons, hS]
  · intro s vs h
    have hstep : (step s (.dataLine (some vs))).current_data =
        extendLast s.current_data vs := by
      simp [step, h]
    rw [hstep]
    exact extendLast_of_ne_nil s.current_data vs h

/-- Witness for C10 at concrete states: a dangling data line is
dropped, both pointwise and inside a full parse, and with an open block
the values land on that block. -/
theorem C10_witness :
    step initState (.dataLine (some [5])) = initState ∧
    parseLines ([.timeLine (some (1, "d"))] ++ .dataLine (some [9]) :: [.kjLine (some (1, 1))]) =
      parseLines ([.timeLine (some (1, "d"))] ++ [.kjLine (some (1, 1))]) ∧
    (step { initState with current_data := [{ k := 1, j := 1, values := [2] }] }
        (.dataLine (some [5]))).current_data =
      [{ k := 1, j := 1, values := [2, 5] }] := by
  refine ⟨C10_data_line_discipline.1 initState [5] rfl,
          C10_data_line_discipline.2.1 [.timeLine (some (1, "d"))] [.kjLine (some (1, 1))] [9]
            (by decide), ?_⟩
  rw [C10_data_line_discipline.2.2 { initState with
        current_data := [{ k := 1, j := 1, values := [2] }] } [5] (by decide)]
  rfl

/-- Report with a matching block and a mismatched block at a different
`(K, J)` pair. -/
def mismatchLines : List Line :=
  [.timeLine (some (1, "d")), .kjLine (some (1, 1)), .dataLine (some [3]),
   .kjLine (some (2, 1))]

/-- C1 amended: in a report where the fill loop completes — every
committed cell block carries the report's 1-based `k`/`j` indices and
no more time steps were committed than time markers were parsed — a
cell block whose value count equals the inferred `n_i` determines the
returned slice `[:, j-1, k-1, time_idx]`, provided no later block of
the same committed time step rewrites the same `(k, j)` pair with a
matching value count (duplicates overwrite: the last such block
survives).  Outside those conditions the write raises `IndexError` and
no array is returned at all. -/
theorem C1_last_writer_slice (fs : FS) (rwoLines : List Line)
    (rwo_folder_path case_name property save_folder_path : String) (is_save : Bool)
    (t_idx : Nat) (td : TimeData) (pre post : List Cell) (c : Cell)
    (hex : fs.pathExists (pathJoin rwo_folder_path (case_name ++ "_" ++ property ++ ".rwo")) = true)
    (hall : ∀ td' ∈ (parseLines rwoLines).pressure_data, ∀ c' ∈ td'.data, 1 ≤ c'.k ∧ 1 ≤ c'.j)
    (hsteps : (parseLines rwoLines).pressure_data.length ≤ (parseLines rwoLines).time_values.length)
    (hn : (parseLines rwoLines).pressure_data[t_idx]? = some td)
    (hdata : td.data = pre ++ c :: post)
    (hlen : c.values.length = (dimScan (parseLines rwoLines).pressure_data).i_count)
    (hpost2 : ∀ c' ∈ post, ¬(c'.k = c.k ∧ c'.j = c.j ∧
        c'.values.length = (dimScan (parseLines rwoLines).pressure_data).i_count)) :
    ∀ i, i < (dimScan (parseLines rwoLines).pressure_data).i_count →
    resGet (CMG_rwo2npy fs rwoLines rwo_folder_path case_name property is_save save_folder_path).2
        i (c.j - 1) (c.k - 1) t_idx = some (c.values.getD i 0) := by
  intro i hi
  have htd : td ∈ (parseLines rwoLines).pressure_data := mem_of_getElem?_some hn
  have hcmem : c ∈ td.data := by
    rw [hdata]
    exact List.mem_append_right _ (List.mem_cons_self _ _)
  have hcfl : c ∈ ((parseLines rwoLines).pressure_data.map TimeData.data).flatten :=
    mem_flatten_of_record hn hcmem
  have hflne : ((parseLines rwoLines).pressure_data.map TimeData.data).flatten ≠ [] :=
    List.ne_nil_of_mem hcfl
  have hkne : (dimScan (parseLines rwoLines).pressure_data).k_values ≠ [] := by
    rw [dimScan_k]
    exact fun he => hflne (List.map_eq_nil_iff.mp he)
  have hjne : (dimScan (parseLines rwoLines).pressure_data).j_values ≠ [] := by
    rw [dimScan_j]
    exact fun he => hflne (List.map_eq_nil_iff.mp he)
  obtain ⟨nk, hk⟩ := max?_of_ne_nil hkne
  obtain ⟨nj, hj⟩ := max?_of_ne_nil hjne
  have hbounds : ∀ td' ∈ (parseLines rwoLines).pressure_data, ∀ c' ∈ td'.data,
      c'.values.length = (dimScan (parseLines rwoLines).pressure_data).i_count →
      1 ≤ c'.j ∧ c'.j ≤ nj ∧ 1 ≤ c'.k ∧ c'.k ≤ nk := by
    intro td' htd' c' hc' _
    obtain ⟨hk1, hj1⟩ := hall td' htd' c' hc'
    have hfl' : c' ∈ ((parseLines rwoLines).pressure_data.map TimeData.data).flatten :=
      List.mem_flatten.mpr ⟨td'.data, List.mem_map_of_mem TimeData.data htd', hc'⟩
    refine ⟨hj1, le_max?_of_mem hj ?_, hk1, le_max?_of_mem hk ?_⟩
    · rw [dimScan_j]
      exact List.mem_map_of_mem Cell.j hfl'
    · rw [dimScan_k]
      exact List.mem_map_of_mem Cell.k hfl'
  have hfa : fillArray (dimScan (parseLines rwoLines).pressure_data).i_count nj nk
      (parseLines rwoLines).time_values.length (parseLines rwoLines).pressure_data =
      .ok (pureFillFrom (dimScan (parseLines rwoLines).pressure_data).i_count 0
        (zeroArr, []) (parseLines rwoLines).pressure_data) :=
    fillFrom_eq_pure _ nj nk _ _ hbounds 0 (by simpa using hsteps) _
  rw [CMG_rwo2npy_result fs rwoLines _ _ _ _ _ hex hk hj hfa]
  simp only [resGet]
  congr 1
  have hck := (hall td htd c hcmem).1
  have hcj := (hall td htd c hcmem).2
  have hpost1 : ∀ c' ∈ post, 1 ≤ c'.k ∧ 1 ≤ c'.j := by
    intro c' hc'
    refine hall td htd c' ?_
    rw [hdata]
    exact List.mem_append_right _ (List.mem_cons_of_mem _ hc')
  simpa using pureFillFrom_last_writer
    (dimScan (parseLines rwoLines).pressure_data).i_count pre post c
    hlen hck hcj hpost1 hpost2
    (parseLines rwoLines).pressure_data t_idx 0 td (zeroArr, []) hn hdata i hi

/-- Witness for C1 amended on `oneBlockLines`: the single block's value
lands at `[0, 0, 0, 0]`. -/
theorem C1_witness :
    resGet (CMG_rwo2npy rwoFS oneBlockLines "rwo" "case" "PRES" false "results").2
      0 0 0 0 = some 3 := by
  have h := C1_last_writer_slice rwoFS oneBlockLines "rwo" "case" "PRES" "results" false
    0 { time := 1, date := "d", data := [{ k := 1, j := 1, values := [3] }] }
    [] [] { k := 1, j := 1, values := [3] }
    (by decide) (by decide) (by decide) (by decide) rfl (by decide)
    (fun c' hc' => absurd hc' (List.not_mem_nil c'))
    0 (by decide)
  simpa using h

/-- C4 amended: in a report where the fill loop completes (1-based
indices throughout, no more committed steps than parsed markers), a
cell block whose value count mismatches the inferred `n_i` produces a
printed warning and leaves its slice `[:, j-1, k-1, time_idx]`
all-zero — provided no block of the same committed time step writes
the same `(k, j)` pair with a matching count — and the call returns
the assembled array instead of aborting. -/
theorem C4_mismatch_zero_warn_continue (fs : FS) (rwoLines : List Line)
    (rwo_folder_path case_name property save_folder_path : String) (is_save : Bool)
    (t_idx : Nat) (td : TimeData) (c : Cell)
    (hex : fs.pathExists (pathJoin rwo_folder_path (case_name ++ "_" ++ property ++ ".rwo")) = true)
    (hall : ∀ td' ∈ (parseLines rwoLines).pressure_data, ∀ c' ∈ td'.data, 1 ≤ c'.k ∧ 1 ≤ c'.j)
    (hsteps : (parseLines rwoLines).pressure_data.length ≤ (parseLines rwoLines).time_values.length)
    (hn : (parseLines rwoLines).pressure_data[t_idx]? = some td)
    (hc : c ∈ td.data)
    (hlen : ¬ c.values.length = (dimScan (parseLines rwoLines).pressure_data).i_count)
    (hnodup : ∀ c' ∈ td.data, ¬(c'.k = c.k ∧ c'.j = c.j ∧
        c'.values.length = (dimScan (parseLines rwoLines).pressure_data).i_count)) :
    resOk (CMG_rwo2npy fs rwoLines rwo_folder_path case_name property is_save save_folder_path).2 = true ∧
    (∀ i, resGet (CMG_rwo2npy fs rwoLines rwo_folder_path case_name property is_save save_folder_path).2
        i (c.j - 1) (c.k - 1) t_idx = some 0) ∧
    Effect.printWarning (warnOf (dimScan (parseLines rwoLines).pressure_data).i_count td.time c) ∈
      (CMG_rwo2npy fs rwoLines rwo_folder_path case_name property is_save save_folder_path).1 := by
  have htd : td ∈ (parseLines rwoLines).pressure_data := mem_of_getElem?_some hn
  have hcfl : c ∈ ((parseLines rwoLines).pressure_data.map TimeData.data).flatten :=
    mem_flatten_of_record hn hc
  have hflne : ((parseLines rwoLines).pressure_data.map TimeData.data).flatten ≠ [] :=
    List.ne_nil_of_mem hcfl
  have hkne : (dimScan (parseLines rwoLines).pressure_data).k_values ≠ [] := by
    rw [dimScan_k]
    exact fun he => hflne (List.map_eq_nil_iff.mp he)
  have hjne : (dimScan (parseLines rwoLines).pressure_data).j_values ≠ [] := by
    rw [dimScan_j]
    exact fun he => hflne (List.map_eq_nil_iff.mp he)
  obtain ⟨nk, hk⟩ := max?_of_ne_nil hkne
  obtain ⟨nj, hj⟩ := max?_of_ne_nil hjne
  have hbounds : ∀ td' ∈ (parseLines rwoLines).pressure_data, ∀ c' ∈ td'.data,
      c'.values.length = (dimScan (parseLines rwoLines).pressure_data).i_count →
      1 ≤ c'.j ∧ c'.j ≤ nj ∧ 1 ≤ c'.k ∧ c'.k ≤ nk := by
    intro td' htd' c' hc' _
    obtain ⟨hk1, hj1⟩ := hall td' htd' c' hc'
    have hfl' : c' ∈ ((parseLines rwoLines).pressure_data.map TimeData.data).flatten :=
      List.mem_flatten.mpr ⟨td'.data, List.mem_map_of_mem TimeData.data htd', hc'⟩
    refine ⟨hj1, le_max?_of_mem hj ?_, hk1, le_max?_of_mem hk ?_⟩
    · rw [dimScan_j]
      exact List.mem_map_of_mem Cell.j hfl'
    · rw [dimScan_k]
      exact List.mem_map_of_mem Cell.k hfl'
  have hfa : fillArray (dimScan (parseLines rwoLines).pressure_data).i_count nj nk
      (parseLines rwoLines).time_values.length (parseLines rwoLines).pressure_data =
      .ok (pureFillFrom (dimScan (parseLines rwoLines).pressure_data).i_count 0
        (zeroArr, []) (parseLines rwoLines).pressure_data) :=
    fillFrom_eq_pure _ nj nk _ _ hbounds 0 (by simpa using hsteps) _
  rw [CMG_rwo2npy_result fs rwoLines _ _ _ _ _ hex hk hj hfa]
  refine ⟨rfl, ?_, ?_⟩
  · intro i
    simp only [resGet]
    congr 1
    rw [pureFillFrom_frame_pt (dimScan (parseLines rwoLines).pressure_data).i_count
      (c.j - 1) (c.k - 1) (parseLines rwoLines).pressure_data 0 (zeroArr, []) t_idx ?_ i]
    · rfl
    · intro n' td' hn' hoff c'' hc'' hlen''
      have hnt : n' = t_idx := by omega
      subst hnt
      rw [hn] at hn'
      injection hn' with e
      subst e
      obtain ⟨hk1, hj1⟩ := hall td htd c'' hc''
      obtain ⟨hck, hcj⟩ := hall td htd c hc
      intro ⟨hje, hke⟩
      exact hnodup c'' hc'' ⟨by omega, by omega, hlen''⟩
  · have hw := pureFillFrom_warn_mem (dimScan (parseLines rwoLines).pressure_data).i_count
      (parseLines rwoLines).pressure_data t_idx td c hn hc hlen 0 (zeroArr, [])
    refine List.mem_append_left _ (List.mem_append_right _ ?_)
    exact List.mem_map_of_mem Effect.printWarning hw

/-- Witness for C4 amended on `mismatchLines`: the empty block at
`(K=2, J=1)` leaves its slice zero, deposits its warning, and the call
returns an array. -/
theorem C4_witness :
    resOk (CMG_rwo2npy rwoFS mismatchLines "rwo" "case" "PRES" false "results").2 = true ∧
    resGet (CMG_rwo2npy rwoFS mismatchLines "rwo" "case" "PRES" false "results").2
      0 0 1 0 = some 0 ∧
    Effect.printWarning { expected := 1, got := 0, k := 2, j := 1, time := 1 } ∈
      (CMG_rwo2npy rwoFS mismatchLines "rwo" "case" "PRES" false "results").1 := by
  have h := C4_mismatch_zero_warn_continue rwoFS mismatchLines "rwo" "case" "PRES"
    "results" false 0
    { time := 1, date := "d",
      data := [{ k := 1, j := 1, values := [3] }, { k := 2, j := 1, values := [] }] }
    { k := 2, j := 1, values := [] }
    (by decide) (by decide) (by decide) (by decide) (by decide) (by decide) (by decide)
  exact ⟨h.1, by simpa using h.2.1 0, by simpa [warnOf] using h.2.2⟩

end CMG2npy
